import Mathlib

/-!
Verification development for the tagify template engine
(`src/tagify/parser.py`).

The Python module is shallowly embedded here.  Python values flowing
through the engine are modelled by the closed inductive `Value`; the
mutable `self.context` dictionary is threaded explicitly as an
association list with unique keys (Python dict semantics: lookup by
key, in-place update on rebinding, append on fresh keys).  Python
exceptions are modelled with `Except PyErr`: `PyErr.exc msg` is a
Python exception carrying its message (catchable by the
`except Exception` handler of `_parse_placeholder`), and
`PyErr.fuelOut` models resource exhaustion of the mutually recursive
placeholder/function-call loop (Python's analogue is `RecursionError`;
here it is kept distinct and uncatchable so that genuine divergence is
never confused with a rendered value; every theorem below evaluates
inside its fuel bound, where behaviour is fuel independent).

The regular expressions of the source are hand-compiled to
deterministic character scanners that reproduce the behaviour of the
specific patterns (greedy/lazy repetition and the relevant
backtracking), operating on `List Char`.  Characters are treated at
ASCII level: Python's `\w`, `str.isidentifier`, `str.isdigit` also
accept non-ASCII code points, which no theorem below exercises.
-/

/-- Arguments handed to a host callable: `_parse_function_call`
produces a `list[str | int]`. -/
inductive Arg where
  | aStr (s : String)
  | aInt (n : Int)
deriving Repr, DecidableEq

/-- The closed union of Python values the engine manipulates: strings,
integers, floats (modelled as rationals: no claim depends on binary64
rounding), booleans, `None`, nested dicts, and host callables.  A
callable receives the positional arguments produced by
`_parse_function_call` and either returns a value or raises (message
string). -/
inductive Value where
  | vStr (s : String)
  | vInt (n : Int)
  | vFloat (q : Rat)
  | vBool (b : Bool)
  | vNone
  | vDict (entries : List (String × Value))
  | vFunc (f : List Arg → Except String Value)

/-- The engine context `self.context`. -/
abbrev Ctx := List (String × Value)

/-- Python exceptions.  `exc` carries `str(e)`. -/
inductive PyErr where
  | exc (msg : String)
  | fuelOut
deriving Repr, DecidableEq

/-- `d.get(k)` returning `None`-or-value as an `Option`. -/
def dictGet : List (String × Value) → String → Option Value
  | [], _ => none
  | (k', v) :: rest, k => if k' = k then some v else dictGet rest k

/-- `d.get(k, default)`. -/
def dictGetD (d : List (String × Value)) (k : String) (dflt : Value) : Value :=
  match dictGet d k with
  | some v => v
  | none => dflt

/-- `k in d`. -/
def dictMem (d : List (String × Value)) (k : String) : Bool :=
  (dictGet d k).isSome

/-- `d[k] = v`: replace in place if the key exists (Python dicts keep
insertion order on rebinding), else append. -/
def dictSet : List (String × Value) → String → Value → List (String × Value)
  | [], k, v => [(k, v)]
  | (k', w) :: rest, k, v =>
      if k' = k then (k, v) :: rest else (k', w) :: dictSet rest k v

/-- Numeric view used by Python `==`: `bool` is a subclass of `int`,
and `int`/`float` compare by value. -/
def toNum : Value → Option Rat
  | .vInt n => some (n : Rat)
  | .vFloat q => some q
  | .vBool b => some (if b then 1 else 0)
  | _ => none

mutual

/-- Python `==` on the modelled values.  Callables compare by object
identity in Python; that is not representable here, so the callable
cases yield `false` (no claim compares callables). -/
def pyEq : Value → Value → Bool
  | a, b =>
    match toNum a, toNum b with
    | some x, some y => x == y
    | _, _ =>
      match a, b with
      | .vStr s, .vStr t => s == t
      | .vNone, .vNone => true
      | .vDict d, .vDict e => pyDictSub d e && pyDictSub e d
      | _, _ => false
termination_by a b => sizeOf a + sizeOf b
decreasing_by all_goals (simp_wf; try omega)

/-- One inclusion of Python dict equality: every binding of the first
dict is present (with `pyEq`-equal value) in the second. -/
def pyDictSub : List (String × Value) → List (String × Value) → Bool
  | [], _ => true
  | (k, v) :: rest, e => pyFindEq e k v && pyDictSub rest e
termination_by l e => sizeOf l + sizeOf e
decreasing_by all_goals (simp_wf; try omega)

/-- Look up `k` in an entry list and compare the stored value with
`v`. -/
def pyFindEq : List (String × Value) → String → Value → Bool
  | [], _, _ => false
  | (k', w) :: rest, k, v => if k' = k then pyEq v w else pyFindEq rest k v
termination_by e _ v => sizeOf e + sizeOf v
decreasing_by all_goals (simp_wf; try omega)

end

/-- Python truthiness `bool(value)`. -/
def pyBool : Value → Bool
  | .vStr s => s ≠ ""
  | .vInt n => n ≠ 0
  | .vFloat q => q ≠ 0
  | .vBool b => b
  | .vNone => false
  | .vDict d => !d.isEmpty
  | .vFunc _ => true

mutual

/-- Python `repr` as used by `str(dict)` for dict members.  String
reprs assume quote-free content (Python would pick quotes and escape);
the callable repr is address dependent in Python and modelled as an
opaque token; no claim renders a callable or a float. -/
def pyRepr : Value → String
  | .vStr s => "'" ++ s ++ "'"
  | .vInt n => toString n
  | .vFloat q => toString q
  | .vBool b => if b then "True" else "False"
  | .vNone => "None"
  | .vDict d => "\x7b" ++ pyReprEntries d ++ "\x7d"
  | .vFunc _ => "<callable>"

/-- Comma-separated `'key': repr(value)` body of a dict repr. -/
def pyReprEntries : List (String × Value) → String
  | [] => ""
  | [(k, v)] => "'" ++ k ++ "': " ++ pyRepr v
  | (k, v) :: rest => "'" ++ k ++ "': " ++ pyRepr v ++ ", " ++ pyReprEntries rest

end

/-- Python `str(value)` as applied at the end of
`_parse_placeholder`. -/
def pyStr : Value → String
  | .vStr s => s
  | .vInt n => toString n
  | .vFloat q => toString q
  | .vBool b => if b then "True" else "False"
  | .vNone => "None"
  | .vDict d => "\x7b" ++ pyReprEntries d ++ "\x7d"
  | .vFunc _ => "<callable>"

/-- Whitespace for Python's `\s` and `str.strip` (ASCII fragment: the
form-feed/vertical-tab cases are not exercised by any claim). -/
def isPySpace (c : Char) : Bool := c.isWhitespace

/-- Characters of Python's `\w` (ASCII fragment). -/
def isWordChar (c : Char) : Bool := c.isAlphanum || c = '_'

/-- `pattern.isPrefixOf text` on raw characters. -/
def listStartsWith : List Char → List Char → Bool
  | [], _ => true
  | _ :: _, [] => false
  | p :: ps, c :: cs => p = c && listStartsWith ps cs

/-- Python `str.strip()` (whitespace from both ends). -/
def listStrip (cs : List Char) : List Char :=
  ((cs.dropWhile isPySpace).reverse.dropWhile isPySpace).reverse

/-- Python `str.strip()` at `String` level. -/
def strStrip (s : String) : String := String.mk (listStrip s.data)

/-- Python `sub in s` for a single character. -/
def strContainsChar (s : String) (c : Char) : Bool := s.data.contains c

/-- Python `s.startswith(p)`. -/
def strStartsWith (s p : String) : Bool := listStartsWith p.data s.data

/-- Python `s[n:]` (character slicing). -/
def strDrop (s : String) (n : Nat) : String := String.mk (s.data.drop n)

/-- Python `key.split(".")`: always at least one (possibly empty)
piece. -/
def splitOnDot : List Char → List (List Char)
  | [] => [[]]
  | c :: rest =>
      let r := splitOnDot rest
      if c = '.' then [] :: r
      else
        match r with
        | p :: ps => (c :: p) :: ps
        | [] => [[c]]

/-- Python `str.isidentifier()` (ASCII fragment). -/
def strIsIdentifier (s : String) : Bool :=
  match s.data with
  | [] => false
  | c :: rest => (c.isAlpha || c = '_') && rest.all isWordChar

/-- Python `str.isdigit()` (ASCII fragment). -/
def strIsDigits (s : String) : Bool :=
  !s.data.isEmpty && s.data.all (·.isDigit)

/-- Numeric value of a digit run. -/
def digitsVal (cs : List Char) : Nat :=
  cs.foldl (fun acc c => acc * 10 + (c.toNat - 48)) 0

/-- Python `int(s)` on the decimal forms the engine can feed it
(optional surrounding whitespace, optional sign, digits; Python's
underscored and non-ASCII digit forms are out of scope of every
claim). -/
def pyParseInt (s : String) : Option Int :=
  let t := listStrip s.data
  let (sign, t2) : Int × List Char :=
    match t with
    | '+' :: r => (1, r)
    | '-' :: r => (-1, r)
    | r => (1, r)
  if !t2.isEmpty && t2.all (·.isDigit) then some (sign * digitsVal t2) else none

/-- Python `float(s)` on plain decimal forms `[sign] digits [. digits]`
with at least one digit (exponents, `inf`, `nan`, underscores are out
of scope of every claim; the call site only reaches this for strings
containing a dot). -/
def pyParseFloat (s : String) : Option Rat :=
  let t := listStrip s.data
  let (sign, t2) : Rat × List Char :=
    match t with
    | '+' :: r => (1, r)
    | '-' :: r => (-1, r)
    | r => (1, r)
  let d1 := t2.takeWhile (·.isDigit)
  let r := t2.dropWhile (·.isDigit)
  match r with
  | [] => if d1.isEmpty then none else some (sign * (digitsVal d1 : Rat))
  | '.' :: r2 =>
      if r2.all (·.isDigit) && !(d1.isEmpty && r2.isEmpty) then
        some (sign * (digitsVal (d1 ++ r2) : Rat) / ((10 : Rat) ^ r2.length))
      else none
  | _ => none

/-- `TemplateParser._process_quotes` (parser.py lines 70-94): strip one
layer of matching quotes, reporting whether the key was quoted. -/
def process_quotes (key : String) : Bool × String :=
  let cs := key.data
  match cs.head?, cs.getLast? with
  | some f, some l =>
      if f = '\'' && l = '\'' then (true, String.mk (cs.drop 1).dropLast)
      else if f = '"' && l = '"' then (true, String.mk (cs.drop 1).dropLast)
      else (false, key)
  | _, _ => (false, key)

/-- The walk of `_resolve_key` (parser.py lines 137-148): descend
nested dicts; a missing key, a stored `None`, or a non-mapping with
path segments remaining all yield Python `None`. -/
def resolveWalk : List (List Char) → Value → Value
  | [], cur => cur
  | p :: rest, cur =>
      match cur with
      | .vDict d =>
          match dictGet d (String.mk p) with
          | none => .vNone
          | some .vNone => .vNone
          | some v => resolveWalk rest v
      | _ => .vNone

/-- `TemplateParser._resolve_key` (parser.py lines 116-148). -/
def resolve_key (ctx : Ctx) (key : String) : Value :=
  let (isQ, k) := process_quotes key
  if isQ then .vStr k
  else resolveWalk (splitOnDot k.data) (.vDict ctx)

/-- Characters of `_re_match`'s first group class `[\w\(\)\.,]`. -/
def isCmpLhsChar (c : Char) : Bool :=
  isWordChar c || c = '(' || c = ')' || c = '.' || c = ','

/-- Right-hand side of `_re_match`: `\s*(.+)` with the pattern's
backtracking (greedy whitespace, then at least one non-newline
character up to the end of the line). -/
def reMatchRhs (r3 : List Char) : Option String :=
  let rest := r3.dropWhile isPySpace
  if rest.isEmpty then
    match (r3.takeWhile isPySpace).reverse.dropWhile (· = '\n') with
    | [] => none
    | c :: _ => some (String.mk [c])
  else
    some (String.mk (rest.takeWhile (· ≠ '\n')))

/-- `_re_match.match(term)` for the anchored pattern
`([\w\(\)\.,]+)\s*(==|!=)\s*(.+)` (parser.py line 12), as the triple
(lhs, operator, rhs).  The operator group admits only `==` and `!=`;
any other operator text makes the whole match fail. -/
def reMatch (s : String) : Option (String × String × String) :=
  let cs := s.data
  let lhs := cs.takeWhile isCmpLhsChar
  let r1 := cs.dropWhile isCmpLhsChar
  if lhs.isEmpty then none
  else
    match r1.dropWhile isPySpace with
    | '=' :: '=' :: r3 => (reMatchRhs r3).map (fun rhs => (String.mk lhs, "==", rhs))
    | '!' :: '=' :: r3 => (reMatchRhs r3).map (fun rhs => (String.mk lhs, "!=", rhs))
    | _ => none

/-- The numeric coercion of `_evaluate_comparison` (parser.py lines
353-363): strings are cast with `float` when they contain a dot, else
with `int`, and kept verbatim when the cast fails. -/
def castNumeric : Value → Value
  | .vStr s =>
      if strContainsChar s '.' then
        match pyParseFloat s with
        | some q => .vFloat q
        | none => .vStr s
      else
        match pyParseInt s with
        | some n => .vInt n
        | none => .vStr s
  | v => v

/-- `TemplateParser._evaluate_comparison` (parser.py lines 303-371).
The `raise ValueError` of the final `match` is modelled by the
`PyErr.exc` branch. -/
def evaluate_comparison (ctx : Ctx) (term0 : String) : Except PyErr Bool :=
  let term := strStrip term0
  if strStartsWith term "not " then
    .ok (!pyBool (resolve_key ctx (strStrip (strDrop term 4))))
  else
    match reMatch term with
    | none =>
        if strIsIdentifier term || strContainsChar term '.' then
          .ok (pyBool (resolve_key ctx term))
        else
          .ok false
    | some (lraw, op, rraw) =>
        let lclean := (process_quotes (strStrip lraw)).2
        let rclean := (process_quotes (strStrip rraw)).2
        let lres := resolve_key ctx lclean
        let rres := resolve_key ctx rclean
        let lval := match lres with | .vNone => .vStr lclean | v => v
        let rval := match rres with | .vNone => .vStr rclean | v => v
        let lval := castNumeric lval
        let rval := castNumeric rval
        if op = "==" then .ok (pyEq lval rval)
        else if op = "!=" then .ok (!pyEq lval rval)
        else .error (.exc ("Invalid operator: " ++ op))

/-- `_re_terms.split(condition)` (pattern `(\s&&\s|\s\|\|\s)`, parser.py
line 11): the first term plus the following (delimiter, term) pairs,
scanning left to right without overlap. -/
def splitTermsGo : List Char → List Char → List Char × List (List Char × List Char)
  | [], acc => (acc.reverse, [])
  | c :: a :: b :: d :: tail, acc =>
      if isPySpace c && ((a = '&' && b = '&') || (a = '|' && b = '|'))
          && isPySpace d then
        let (t, more) := splitTermsGo tail []
        (acc.reverse, ([c, a, b, d], t) :: more)
      else splitTermsGo (a :: b :: d :: tail) (c :: acc)
  | c :: rest, acc => splitTermsGo rest (c :: acc)

/-- Fold of `_evaluate_condition`'s loop (parser.py lines 291-299):
strict left-to-right evaluation, `&&` as `and`, `||` as `or`. -/
def evalTermsFold (ctx : Ctx) : Bool → List (List Char × List Char) → Except PyErr Bool
  | acc, [] => .ok acc
  | acc, (delim, t) :: rest => do
      let op := strStrip (String.mk delim)
      let b ← evaluate_comparison ctx (strStrip (String.mk t))
      let acc' := if op = "&&" then acc && b else if op = "||" then acc || b else acc
      evalTermsFold ctx acc' rest

/-- `TemplateParser._evaluate_condition` (parser.py lines 273-301). -/
def evaluate_condition (ctx : Ctx) (condition : String) : Except PyErr Bool := do
  let (t0, rest) := splitTermsGo condition.data []
  let first ← evaluate_comparison ctx (strStrip (String.mk t0))
  evalTermsFold ctx first rest

/-- Lazy `(.+?)` capture terminated by the literal ` %}`: the shortest
nonempty prefix followed immediately by the terminator.  Returns the
capture and the characters consumed including the terminator. -/
def condCapture : List Char → List Char → Option (List Char × Nat)
  | _, [] => none
  | acc, c :: rest =>
      if !acc.isEmpty && listStartsWith [' ', '%', '\x7d'] (c :: rest) then
        some (acc.reverse, acc.length + 3)
      else condCapture (c :: acc) rest

/-- One match attempt of `_re_blocks` (pattern
`{% elif (.+?) %}|{% else %}`, parser.py line 10) at the current
position: the elif condition (or `none` for an else marker) and the
match length. -/
def matchBlockAt (cs : List Char) : Option (Option String × Nat) :=
  if listStartsWith ("\x7b% elif ".data) cs then
    match condCapture [] (cs.drop 8) with
    | some (cond, n) => some (some (String.mk cond), 8 + n)
    | none => none
  else if listStartsWith ("\x7b% else %\x7d".data) cs then
    some (none, 10)
  else none

/-- The `_re_blocks.finditer` slicing loop of
`_evaluate_conditional_block` (parser.py lines 249-265): the text
before the first marker, then (marker, following text) pairs. -/
def blocksGo (skip : Nat) (acc : List Char) : List Char → List Char × List (Option String × List Char)
  | [] => (acc.reverse, [])
  | c :: rest =>
      match skip with
      | s + 1 => blocksGo s acc rest
      | 0 =>
          match matchBlockAt (c :: rest) with
          | some (cond, n) =>
              let (blk, more) := blocksGo (n - 1) [] rest
              (acc.reverse, (cond, blk) :: more)
          | none => blocksGo 0 (c :: acc) rest

/-- The selection loop of `_evaluate_conditional_block` (parser.py
lines 267-271): first branch whose condition is `None` (an `else`) or
evaluates true returns its stripped body; otherwise `""`. -/
def select_branch (ctx : Ctx) : List (Option String × List Char) → Except PyErr String
  | [] => .ok ""
  | (none, blk) :: _ => .ok (strStrip (String.mk blk))
  | (some c, blk) :: rest => do
      let t ← evaluate_condition ctx (strStrip c)
      if t then .ok (strStrip (String.mk blk)) else select_branch ctx rest

/-- `TemplateParser._evaluate_conditional_block` (parser.py lines
232-271), taking the two regex groups (condition, content) of the
outer conditional pattern.  Elif conditions are stripped when
collected, mirroring line 260. -/
def evaluate_conditional_block (ctx : Ctx) (condition content : String) :
    Except PyErr String :=
  let (b0, markers) := blocksGo 0 [] content.data
  let branches := (some condition, b0) ::
    markers.map (fun p => (p.1.map strStrip, p.2))
  select_branch ctx branches

/-- Lazy `(.+?)` capture (with DOTALL) terminated by the literal
`{% endif %}`. -/
def bodyCapture : List Char → List Char → Option (List Char × Nat)
  | _, [] => none
  | acc, c :: rest =>
      if !acc.isEmpty && listStartsWith ("\x7b% endif %\x7d".data) (c :: rest) then
        some (acc.reverse, acc.length + 11)
      else bodyCapture (c :: acc) rest

/-- Backtracking search for `(.+?) %}(.+?){% endif %}`: try each
condition terminator ` %}` from the left; for each, take the shortest
nonempty body ending at a `{% endif %}`; the first candidate with a
valid body wins (Python's lazy-group backtracking order). -/
def condIfGo : List Char → List Char → Option (String × String × Nat)
  | _, [] => none
  | acc, c :: rest =>
      if !acc.isEmpty && listStartsWith [' ', '%', '\x7d'] (c :: rest) then
        match bodyCapture [] ((c :: rest).drop 3) with
        | some (body, m) =>
            some (String.mk acc.reverse, String.mk body, acc.length + 3 + m)
        | none => condIfGo (c :: acc) rest
      else condIfGo (c :: acc) rest

/-- One match attempt of `_re_conditional_pattern`
(`{% if (.+?) %}(.+?){% endif %}` with DOTALL, parser.py lines 14-17)
at the current position: (condition, content, match length). -/
def matchCondAt (cs : List Char) : Option (String × String × Nat) :=
  if listStartsWith ("\x7b% if ".data) cs then
    (condIfGo [] (cs.drop 6)).map (fun r => (r.1, r.2.1, 6 + r.2.2))
  else none

/-- The `_re_conditional_pattern.sub` scan of `_process_conditionals`
(parser.py lines 227-230): left-to-right, non-overlapping, replacement
text not rescanned. -/
def processCondChars (ctx : Ctx) (skip : Nat) : List Char → Except PyErr (List Char)
  | [] => .ok []
  | c :: rest =>
      match skip with
      | s + 1 => processCondChars ctx s rest
      | 0 =>
          match matchCondAt (c :: rest) with
          | some (cond, content, n) => do
              let b ← evaluate_conditional_block ctx cond content
              let tail ← processCondChars ctx (n - 1) rest
              .ok (b.data ++ tail)
          | none => do
              let tail ← processCondChars ctx 0 rest
              .ok (c :: tail)

/-- `TemplateParser._process_conditionals` (parser.py lines 213-230). -/
def process_conditionals (ctx : Ctx) (template : String) : Except PyErr String :=
  (processCondChars ctx 0 template.data).map String.mk

/-- Start index of the last occurrence of ` %}` in a character list
(the greedy backtracking target of `(.*) %}`). -/
def lastOccurPB : List Char → Option Nat
  | [] => none
  | c :: rest =>
      match lastOccurPB rest with
      | some j => some (j + 1)
      | none => if listStartsWith [' ', '%', '\x7d'] (c :: rest) then some 0 else none

/-- The `\s*(.*) %}` tail of `_re_variables` (parser.py line 13):
greedy whitespace first, then the greedy single-line `(.*)`
backtracking to the last ` %}` of the line; on failure one whitespace
character at a time is given back to the `(.*)` group.  `region` is
the text after the whitespace consumed so far, `wsRev` the reversed
whitespace still available to give back, `k` the offset of `region`
after the `=`.  Returns (value group, characters consumed after the
`=`). -/
def varValGo (wsRev : List Char) (region : List Char) (k : Nat) :
    Option (List Char × Nat) :=
  let line := region.takeWhile (· ≠ '\n')
  match lastOccurPB line with
  | some j => some (region.take j, k + j + 3)
  | none =>
      match wsRev with
      | [] => none
      | w :: wr => varValGo wr (w :: region) (k - 1)

/-- One match attempt of `_re_variables`
(`{% set ([\w\d]+)\s*=\s*(.*) %}`, parser.py line 13) at the current
position: (name group, value group, match length). -/
def matchVarAt (cs : List Char) : Option (String × String × Nat) :=
  if listStartsWith ("\x7b% set ".data) cs then
    let t := cs.drop 7
    let key := t.takeWhile isWordChar
    if key.isEmpty then none
    else
      let r1 := t.dropWhile isWordChar
      let ws1 := r1.takeWhile isPySpace
      match r1.dropWhile isPySpace with
      | '=' :: r2 =>
          let ws := r2.takeWhile isPySpace
          let rest := r2.dropWhile isPySpace
          match varValGo ws.reverse rest ws.length with
          | some (value, m) =>
              some (String.mk key, String.mk value,
                7 + key.length + ws1.length + 1 + m)
          | none => none
      | _ => none
  else none

/-- The common scan of `_re_variables.finditer` and
`_re_variables.sub("", ...)` in `_process_variables` (parser.py lines
110-114): the ordered (name, value) match groups, and the template
with every match deleted.  The two Python passes scan the same
unchanged template, so they see the same matches. -/
def varScanGo (skip : Nat) : List Char → List (String × String) × List Char
  | [] => ([], [])
  | c :: rest =>
      match skip with
      | s + 1 => varScanGo s rest
      | 0 =>
          match matchVarAt (c :: rest) with
          | some (k, v, n) =>
              let (ms, res) := varScanGo (n - 1) rest
              ((k, v) :: ms, res)
          | none =>
              let (ms, res) := varScanGo 0 rest
              (ms, c :: res)

/-- Entry point of the scan. -/
def varScan (cs : List Char) : List (String × String) × List Char :=
  varScanGo 0 cs

/-- The lazy `(?:\(([\s\S]+?)\))?` group of `_re_placeholder`: find
each `)` (with at least one content character) from the left and
accept the first one followed by `\s*}`; a rejected `)` becomes
content (Python's lazy-group growth).  Returns (content, characters
consumed from after the `(` through the closing `}`). -/
def parenScan (acc : List Char) : List Char → Option (List Char × Nat)
  | [] => none
  | c :: rest =>
      if c = ')' && !acc.isEmpty then
        let w2 := rest.takeWhile isPySpace
        match rest.dropWhile isPySpace with
        | '\x7d' :: _ => some (acc.reverse, acc.length + 1 + w2.length + 1)
        | _ => parenScan (c :: acc) rest
      else parenScan (c :: acc) rest

/-- Characters of the path group class `[\w\d.]` of
`_re_placeholder`. -/
def isPathChar (c : Char) : Bool := isWordChar c || c = '.'

/-- One match attempt of `_re_placeholder`
(`{\s*([\w\d.]+)*(?:\(([\s\S]+?)\))?\s*}`, parser.py lines 6-9) at the
current position: (path group or `none` when the starred group matched
zero times, argument group, match length).  The deterministic scan
reproduces the pattern's backtracking: reducing the whitespace or path
runs can never rescue a failed attempt, since the following element
then faces a word or whitespace character where it needs `(` or
`}`. -/
def matchPlaceholderAt (cs : List Char) : Option (Option String × Option String × Nat) :=
  match cs with
  | '\x7b' :: rest =>
      let w1 := rest.takeWhile isPySpace
      let r1 := rest.dropWhile isPySpace
      let pc := r1.takeWhile isPathChar
      let g1 := if pc.isEmpty then none else some (String.mk pc)
      match r1.dropWhile isPathChar with
      | '(' :: r3 =>
          match parenScan [] r3 with
          | some (content, n) =>
              some (g1, some (String.mk content), 1 + w1.length + pc.length + 1 + n)
          | none => none
      | r2 =>
          let w2 := r2.takeWhile isPySpace
          match r2.dropWhile isPySpace with
          | '\x7d' :: _ => some (g1, none, 1 + w1.length + pc.length + w2.length + 1)
          | _ => none
  | _ => none

/-- The character loop of `_parse_function_call` (parser.py lines
387-410): split on commas outside quotes, tracking quote state; each
piece is stripped; the final piece is kept only when its character
list is nonempty. -/
def splitArgsGo : List Char → List Char → Option Char → List String
  | [], acc, _ => if acc.isEmpty then [] else [strStrip (String.mk acc.reverse)]
  | c :: rest, acc, qs =>
      let qs' := if c = '"' || c = '\'' then
          match qs with
          | none => some c
          | some q => if q = c then none else some q
        else qs
      if c = ',' && qs'.isNone then
        strStrip (String.mk acc.reverse) :: splitArgsGo rest [] qs'
      else
        splitArgsGo rest (c :: acc) qs'

/-- `_parse_function_call`'s comma split on the full expression. -/
def splitArgs (expr : String) : List String := splitArgsGo expr.data [] none

/-- The per-token resolution loop of `_parse_function_call` (parser.py
lines 412-423): context-key substitution (stringified), integer
literals, quoted literals, else the raw token. -/
def resolveArgToken (ctx : Ctx) (arg : String) : Arg :=
  if dictMem ctx arg then .aStr (pyStr (dictGetD ctx arg .vNone))
  else if strIsDigits arg then .aInt (digitsVal arg.data)
  else
    match arg.data.head?, arg.data.getLast? with
    | some f, some l =>
        if (f = '"' && l = '"') || (f = '\'' && l = '\'') then
          .aStr (String.mk (arg.data.drop 1).dropLast)
        else .aStr arg
    | _, _ => .aStr arg

mutual

/-- `TemplateParser._process_placeholders` (parser.py lines 194-211):
`_re_placeholder.sub(self._parse_placeholder, template)`.  The first
argument of every function in this block is fuel, decremented at each
recursive call; exhaustion is the uncatchable `PyErr.fuelOut`
(Python's analogue is `RecursionError`; the engine's mutual recursion
placeholder -> function call -> argument placeholder pass genuinely
diverges on self-referential contexts). -/
def process_placeholders : Nat → Ctx → String → Except PyErr String
  | 0, _, _ => .error .fuelOut
  | n + 1, ctx, template => (subScan n ctx 0 template.data).map String.mk

/-- The left-to-right non-overlapping `re.sub` scan for
`_re_placeholder`; replacement text is not rescanned, and `skip`
counts remaining characters of the current match still to be
discarded. -/
def subScan : Nat → Ctx → Nat → List Char → Except PyErr (List Char)
  | 0, _, _, _ => .error .fuelOut
  | _ + 1, _, _, [] => .ok []
  | n + 1, ctx, s + 1, _ :: rest => subScan n ctx s rest
  | n + 1, ctx, 0, c :: rest =>
      match matchPlaceholderAt (c :: rest) with
      | some (g1, g2, len) => do
          let rep ← parse_placeholder n ctx g1 g2
          let tail ← subScan n ctx (len - 1) rest
          .ok (rep.data ++ tail)
      | none => do
          let tail ← subScan n ctx 0 rest
          .ok (c :: tail)

/-- `TemplateParser._parse_placeholder` (parser.py lines 150-192) on
the two match groups.  A missing path group makes line 172
(`func_key.split(".")`) raise `AttributeError` outside the `try`;
exceptions inside the walk are caught and rendered as the
`[ ERROR:... ]` marker (lines 189-190); a final callable value yields
`safe_unused` (line 192). -/
def parse_placeholder : Nat → Ctx → Option String → Option String → Except PyErr String
  | 0, _, _, _ => .error .fuelOut
  | _ + 1, _, none, _ => .error (.exc "'NoneType' object has no attribute 'split'")
  | n + 1, ctx, some funcKey, g2 =>
      let safeUnused := "\x7b" ++ funcKey ++ "\x7d"
      match placeholderWalk n ctx safeUnused g2
          (splitOnDot funcKey.data) (.vDict ctx) with
      | .ok cur =>
          .ok (match cur with
               | .vFunc _ => safeUnused
               | v => pyStr v)
      | .error (.exc m) => .ok ("[ ERROR:" ++ funcKey ++ ": " ++ m ++ " ]")
      | .error .fuelOut => .error .fuelOut

/-- The `for part in parts` loop of `_parse_placeholder` (lines
176-187): a dict is indexed with `safe_unused` as default; a dict
result keeps digging; a callable result is invoked on the parsed
argument list (re-parsed at each callable, as in the source); anything
else is carried to the next segment unchanged. -/
def placeholderWalk : Nat → Ctx → String → Option String → List (List Char) → Value →
    Except PyErr Value
  | 0, _, _, _, _, _ => .error .fuelOut
  | _ + 1, _, _, _, [], cur => .ok cur
  | n + 1, ctx, safeUnused, g2, p :: rest, cur =>
      let cur1 := match cur with
        | .vDict d => dictGetD d (String.mk p) (.vStr safeUnused)
        | c => c
      match cur1 with
      | .vDict _ => placeholderWalk n ctx safeUnused g2 rest cur1
      | .vFunc f => do
          let args ← parse_function_call n ctx g2
          match f args with
          | .ok v => placeholderWalk n ctx safeUnused g2 rest v
          | .error m => .error (.exc m)
      | _ => placeholderWalk n ctx safeUnused g2 rest cur1

/-- `TemplateParser._parse_function_call` (parser.py lines 373-430).
With no argument group (`None`), iterating the argument raises
`TypeError` (line 392). -/
def parse_function_call : Nat → Ctx → Option String → Except PyErr (List Arg)
  | 0, _, _ => .error .fuelOut
  | _ + 1, _, none => .error (.exc "'NoneType' object is not iterable")
  | n + 1, ctx, some expr =>
      mapProcessArgs n ctx ((splitArgs expr).map (resolveArgToken ctx))

/-- The final list comprehension of `_parse_function_call` (lines
425-430): run placeholder resolution over each argument that is still
a string. -/
def mapProcessArgs : Nat → Ctx → List Arg → Except PyErr (List Arg)
  | 0, _, _ => .error .fuelOut
  | _ + 1, _, [] => .ok []
  | n + 1, ctx, .aStr s :: rest => do
      let s' ← process_placeholders n ctx s
      let more ← mapProcessArgs n ctx rest
      .ok (.aStr s' :: more)
  | n + 1, ctx, .aInt m :: rest => do
      let more ← mapProcessArgs n ctx rest
      .ok (.aInt m :: more)

end

/-- The binding loop of `_process_variables` (parser.py lines
110-112), in source order of the matches: each VALUE is stripped, run
through placeholder resolution against the context as mutated so far,
and stored under the stripped NAME (rebinding replaces in place). -/
def bindVars (fuel : Nat) : Ctx → List (String × String) → Except PyErr Ctx
  | ctx, [] => .ok ctx
  | ctx, (k, v) :: rest => do
      let rv ← process_placeholders fuel ctx (strStrip v)
      bindVars fuel (dictSet ctx (strStrip k) (.vStr rv)) rest

/-- `TemplateParser._process_variables` (parser.py lines 96-114):
bind every `{% set %}` match, then return the template with the
matches deleted. -/
def process_variables (fuel : Nat) (ctx : Ctx) (template : String) :
    Except PyErr (Ctx × String) := do
  let (ms, residual) := varScan template.data
  let ctx' ← bindVars fuel ctx ms
  .ok (ctx', String.mk residual)

/-- `TemplateParser.render` (parser.py lines 45-68): strip, variable
stage, conditional stage (when enabled), placeholder stage, strip.
The mutated context is returned alongside the output. -/
def render (fuel : Nat) (conditionals : Bool) (ctx : Ctx) (template : String) :
    Except PyErr (String × Ctx) := do
  let t := strStrip template
  let (ctx1, t1) ← process_variables fuel ctx t
  let t2 ← if conditionals then process_conditionals ctx1 t1 else .ok t1
  let t3 ← process_placeholders fuel ctx1 t2
  .ok (strStrip t3, ctx1)

/-! ## Claim-side definitions

Mirrors of the `_parse_placeholder` walk used to state properties
about whole classes of contexts, plus spec-side formulations used for
refutation or comparison. -/

/-- Pure mirror of the `_parse_placeholder` loop on paths that never
reach a callable: `some v` is the value held by `current` after the
loop, `none` means a callable was encountered. -/
def walkNC (safeUnused : String) : List (List Char) → Value → Option Value
  | [], cur => some cur
  | p :: rest, cur =>
      match cur with
      | .vDict d =>
          match dictGetD d (String.mk p) (.vStr safeUnused) with
          | .vFunc _ => none
          | c1 => walkNC safeUnused rest c1
      | .vFunc _ => none
      | c => walkNC safeUnused rest c

/-- The walk performs a dict lookup that misses (so `safe_unused` is
substituted) before ever encountering a callable. -/
def walkHitsMiss : List (List Char) → Value → Bool
  | [], _ => false
  | p :: rest, cur =>
      match cur with
      | .vDict d =>
          match dictGet d (String.mk p) with
          | none => true
          | some (.vFunc _) => false
          | some v => walkHitsMiss rest v
      | .vFunc _ => false
      | c => walkHitsMiss rest c

/-- The walk encounters a callable (before which every lookup hit). -/
def walkHitsFunc (safeUnused : String) : List (List Char) → Value → Bool
  | [], _ => false
  | p :: rest, cur =>
      let cur1 := match cur with
        | .vDict d => dictGetD d (String.mk p) (.vStr safeUnused)
        | c => c
      match cur1 with
      | .vFunc _ => true
      | c1 => walkHitsFunc safeUnused rest c1

/-- Branch list of a conditional block exactly as
`_evaluate_conditional_block` builds it: the `if` condition with the
text before the first marker, then each marker's (condition?, text). -/
def condBranches (condition content : String) : List (Option String × List Char) :=
  let (b0, markers) := blocksGo 0 [] content.data
  (some condition, b0) :: markers.map (fun p => (p.1.map strStrip, p.2))

/-- An `else` marker (condition `none`), when present, is the last
branch: the well-formed shape `if [elif]* [else] endif` of the
documented grammar. -/
def elseTerminal : List (Option String × List Char) → Bool
  | [] => true
  | (none, _) :: rest => rest.isEmpty
  | (some _, _) :: rest => elseTerminal rest

/-- Total wrapper of `evaluate_condition` (it never errors; see the
lemmas below). -/
def evalCondBool (ctx : Ctx) (c : String) : Bool :=
  match evaluate_condition ctx c with
  | .ok b => b
  | .error _ => false

/-- Branch selection in the words of the claim: the body of the first
branch whose condition holds, else the `else` body if one exists, else
`""`; the kept body is trimmed. -/
def specSelectBranch (ctx : Ctx) (branches : List (Option String × List Char)) : String :=
  match branches.find? (fun p =>
      match p.1 with
      | some c => evalCondBool ctx (strStrip c)
      | none => false) with
  | some p => strStrip (String.mk p.2)
  | none =>
      match branches.find? (fun p => p.1.isNone) with
      | some p => strStrip (String.mk p.2)
      | none => ""

/-- One argument through the stages of `_parse_function_call` after
the comma split: token resolution (context key / integer / quotes),
then one placeholder-resolution pass when still a string. -/
def argStage (fuel : Nat) (ctx : Ctx) (tok : String) : Except PyErr Arg :=
  match resolveArgToken ctx tok with
  | .aStr s => (process_placeholders fuel ctx s).map .aStr
  | .aInt m => .ok (.aInt m)

/-- The argument pipeline in the order claim C8 states it: one
placeholder-resolution pass over the RAW argument substring first,
then the top-level comma split, then per-token resolution.  Stated
only to be compared against `parse_function_call`, which splits
first. -/
def claimOrderArgs (fuel : Nat) (ctx : Ctx) (expr : String) : Except PyErr (List Arg) := do
  let pre ← process_placeholders fuel ctx expr
  .ok ((splitArgs pre).map (resolveArgToken ctx))

/-- Host callable returning how many positional arguments it
received. -/
def cbCount : List Arg → Except String Value
  | args => .ok (.vInt args.length)

/-- Host callable printing its arguments joined by `|` in the order
received. -/
def cbJoin : List Arg → Except String Value
  | args => .ok (.vStr (String.intercalate "|" (args.map (fun a =>
      match a with
      | .aStr s => s
      | .aInt n => toString n))))

/-! ## Helper lemmas -/

/-- A string value is carried unchanged through the remaining path
segments of the walk. -/
theorem walkNC_str (su : String) : ∀ (parts : List (List Char)) (s : String),
    walkNC su parts (.vStr s) = some (.vStr s) := by
  intro parts
  induction parts with
  | nil => intro s; rfl
  | cons p rest ih => intro s; simpa [walkNC] using ih s

/-- The fueled walk agrees with its pure callable-free mirror given
enough fuel. -/
theorem walkNC_sound : ∀ (parts : List (List Char)) (fuel : Nat) (ctx : Ctx)
    (su : String) (g2 : Option String) (cur v : Value),
    walkNC su parts cur = some v → parts.length < fuel →
    placeholderWalk fuel ctx su g2 parts cur = .ok v := by
  intro parts
  induction parts with
  | nil =>
      intro fuel ctx su g2 cur v h hf
      match fuel, hf with
      | n + 1, _ =>
        simp only [walkNC, Option.some.injEq] at h
        simp [placeholderWalk, h]
  | cons p rest ih =>
      intro fuel ctx su g2 cur v h hf
      match fuel, hf with
      | n + 1, hf =>
        have hrest : rest.length < n := by
          simp only [List.length_cons] at hf; omega
        cases cur with
        | vDict d =>
            simp only [walkNC] at h
            simp only [placeholderWalk]
            cases hget : dictGetD d (String.mk p) (.vStr su) <;>
              rw [hget] at h <;> simp_all
        | vFunc f => simp [walkNC] at h
        | vStr s =>
            simp only [walkNC] at h
            simp only [placeholderWalk]
            exact ih n ctx su g2 _ v h hrest
        | vInt m =>
            simp only [walkNC] at h
            simp only [placeholderWalk]
            exact ih n ctx su g2 _ v h hrest
        | vFloat q =>
            simp only [walkNC] at h
            simp only [placeholderWalk]
            exact ih n ctx su g2 _ v h hrest
        | vBool b =>
            simp only [walkNC] at h
            simp only [placeholderWalk]
            exact ih n ctx su g2 _ v h hrest
        | vNone =>
            simp only [walkNC] at h
            simp only [placeholderWalk]
            exact ih n ctx su g2 _ v h hrest

/-- A walk whose first event is a failed dict lookup ends holding the
substituted `safe_unused` string. -/
theorem walkHitsMiss_walkNC (su : String) : ∀ (parts : List (List Char)) (cur : Value),
    walkHitsMiss parts cur = true → walkNC su parts cur = some (.vStr su) := by
  intro parts
  induction parts with
  | nil => intro cur h; simp [walkHitsMiss] at h
  | cons p rest ih =>
      intro cur h
      cases cur with
      | vDict d =>
          simp only [walkHitsMiss] at h
          simp only [walkNC, dictGetD]
          cases hget : dictGet d (String.mk p) with
          | none => rw [hget] at h; simpa using walkNC_str su rest su
          | some v =>
              rw [hget] at h
              cases v <;> simp_all
      | vFunc f => simp [walkHitsMiss] at h
      | vStr s =>
          simp only [walkHitsMiss] at h
          simpa [walkNC] using ih _ h
      | vInt m =>
          simp only [walkHitsMiss] at h
          simpa [walkNC] using ih _ h
      | vFloat q =>
          simp only [walkHitsMiss] at h
          simpa [walkNC] using ih _ h
      | vBool b =>
          simp only [walkHitsMiss] at h
          simpa [walkNC] using ih _ h
      | vNone =>
          simp only [walkHitsMiss] at h
          simpa [walkNC] using ih _ h

/-- A walk that reaches a callable while the token has no argument
group raises the `TypeError` of `_parse_function_call(None)` (given
enough fuel for the exception, rather than fuel exhaustion, to
surface). -/
theorem walkHitsFunc_err : ∀ (parts : List (List Char)) (fuel : Nat) (ctx : Ctx)
    (su : String) (cur : Value),
    walkHitsFunc su parts cur = true → parts.length < fuel →
    placeholderWalk fuel ctx su none parts cur =
      .error (.exc "'NoneType' object is not iterable") := by
  intro parts
  induction parts with
  | nil => intro fuel ctx su cur h _; simp [walkHitsFunc] at h
  | cons p rest ih =>
      intro fuel ctx su cur h hf
      match fuel, hf with
      | n + 1, hf =>
        have hrest : rest.length < n := by
          simp only [List.length_cons] at hf; omega
        have hn : 0 < n := Nat.lt_of_le_of_lt (Nat.zero_le _) hrest
        cases cur with
        | vDict d =>
            simp only [walkHitsFunc] at h
            simp only [placeholderWalk]
            cases hget : dictGetD d (String.mk p) (.vStr su) <;> rw [hget] at h
            case vFunc f =>
                match n, hn with
                | m + 1, _ => rfl
            all_goals simp_all
        | vFunc f =>
            simp only [placeholderWalk]
            match n, hn with
            | m + 1, _ => rfl
        | vStr s =>
            simp only [walkHitsFunc] at h
            simp only [placeholderWalk]
            exact ih n ctx su _ h hrest
        | vInt m =>
            simp only [walkHitsFunc] at h
            simp only [placeholderWalk]
            exact ih n ctx su _ h hrest
        | vFloat q =>
            simp only [walkHitsFunc] at h
            simp only [placeholderWalk]
            exact ih n ctx su _ h hrest
        | vBool b =>
            simp only [walkHitsFunc] at h
            simp only [placeholderWalk]
            exact ih n ctx su _ h hrest
        | vNone =>
            simp only [walkHitsFunc] at h
            simp only [placeholderWalk]
            exact ih n ctx su _ h hrest

/-- The operator group of `_re_match` admits only `==` and `!=`. -/
theorem reMatch_op (s l op r : String) (h : reMatch s = some (l, op, r)) :
    op = "==" ∨ op = "!=" := by
  unfold reMatch at h
  dsimp only at h
  split at h
  · simp at h
  · split at h
    · obtain ⟨a, -, h2⟩ := Option.map_eq_some'.mp h
      cases h2
      exact Or.inl rfl
    · obtain ⟨a, -, h2⟩ := Option.map_eq_some'.mp h
      cases h2
      exact Or.inr rfl
    · simp at h

/-- `_evaluate_comparison` never raises: the only `raise` is behind an
operator check that `_re_match` makes unreachable. -/
theorem evaluate_comparison_ok (ctx : Ctx) (term : String) :
    ∃ b, evaluate_comparison ctx term = .ok b := by
  unfold evaluate_comparison
  dsimp only
  split
  · exact ⟨_, rfl⟩
  · split
    · split
      · exact ⟨_, rfl⟩
      · exact ⟨_, rfl⟩
    · next l op r heq =>
        rcases reMatch_op _ l op r heq with h | h <;> subst h <;> simp

/-- The fold of `_evaluate_condition` never raises. -/
theorem evalTermsFold_ok (ctx : Ctx) :
    ∀ (l : List (List Char × List Char)) (acc : Bool),
    ∃ b, evalTermsFold ctx acc l = .ok b := by
  intro l
  induction l with
  | nil => intro acc; exact ⟨acc, rfl⟩
  | cons p rest ih =>
      intro acc
      obtain ⟨b, hb⟩ := evaluate_comparison_ok ctx (strStrip (String.mk p.2))
      obtain ⟨c, hc⟩ := ih (if strStrip (String.mk p.1) = "&&" then acc && b
        else if strStrip (String.mk p.1) = "||" then acc || b else acc)
      refine ⟨c, ?_⟩
      show (do
        let b ← evaluate_comparison ctx (strStrip (String.mk p.2))
        evalTermsFold ctx (if strStrip (String.mk p.1) = "&&" then acc && b
          else if strStrip (String.mk p.1) = "||" then acc || b else acc) rest) = .ok c
      rw [hb]
      exact hc

/-- `_evaluate_condition` never raises. -/
theorem evaluate_condition_ok (ctx : Ctx) (cond : String) :
    ∃ b, evaluate_condition ctx cond = .ok b := by
  unfold evaluate_condition
  obtain ⟨b, hb⟩ := evaluate_comparison_ok ctx
    (strStrip (String.mk (splitTermsGo cond.data []).1))
  obtain ⟨c, hc⟩ := evalTermsFold_ok ctx (splitTermsGo cond.data []).2 b
  refine ⟨c, ?_⟩
  show (do
    let first ← evaluate_comparison ctx (strStrip (String.mk (splitTermsGo cond.data []).1))
    evalTermsFold ctx first (splitTermsGo cond.data []).2) = .ok c
  rw [hb]
  exact hc

/-- `evaluate_condition` computes its total wrapper. -/
theorem evaluate_condition_eq (ctx : Ctx) (cond : String) :
    evaluate_condition ctx cond = .ok (evalCondBool ctx cond) := by
  obtain ⟨b, hb⟩ := evaluate_condition_ok ctx cond
  rw [hb, evalCondBool, hb]

/-- With any `else` branch terminal, the selection loop of
`_evaluate_conditional_block` computes exactly: first true branch,
else the `else` body, else `""` (bodies trimmed). -/
theorem select_branch_spec (ctx : Ctx) :
    ∀ branches : List (Option String × List Char),
    elseTerminal branches = true →
    select_branch ctx branches = .ok (specSelectBranch ctx branches) := by
  intro branches
  induction branches with
  | nil => intro _; rfl
  | cons p rest ih =>
      intro h
      match p with
      | (none, blk) =>
          have hrest : rest = [] := by
            simpa [elseTerminal, List.isEmpty_iff] using h
          subst hrest
          simp [select_branch, specSelectBranch, List.find?]
      | (some c, blk) =>
          have h' : elseTerminal rest = true := by simpa [elseTerminal] using h
          have hc := evaluate_condition_eq ctx (strStrip c)
          by_cases hb : evalCondBool ctx (strStrip c) = true
          · simp only [select_branch, hc, specSelectBranch, List.find?, hb]
            rfl
          · have hb' : evalCondBool ctx (strStrip c) = false := by
              simpa using hb
            have := ih h'
            simp only [select_branch, hc, Except.bind, hb']
            rw [this]
            simp only [specSelectBranch, List.find?, hb']
            rfl

/-- The argument placeholder pass preserves the number and order of
arguments: it maps the list elementwise. -/
theorem mapProcessArgs_length : ∀ (l : List Arg) (fuel : Nat) (ctx : Ctx) (args : List Arg),
    mapProcessArgs fuel ctx l = .ok args → args.length = l.length := by
  intro l
  induction l with
  | nil =>
      intro fuel ctx args h
      match fuel with
      | 0 => exact Except.noConfusion h
      | n + 1 =>
          have h' : (Except.ok ([] : List Arg) : Except PyErr (List Arg)) = .ok args := h
          cases h'
          rfl
  | cons a rest ih =>
      intro fuel ctx args h
      match fuel with
      | 0 => exact Except.noConfusion h
      | n + 1 =>
          cases a with
          | aStr s =>
              simp only [mapProcessArgs] at h
              cases hp : process_placeholders n ctx s with
              | error e =>
                  rw [hp] at h
                  exact Except.noConfusion h
              | ok s' =>
                  rw [hp] at h
                  cases hm : mapProcessArgs n ctx rest with
                  | error e =>
                      rw [hm] at h
                      exact Except.noConfusion h
                  | ok more =>
                      rw [hm] at h
                      have h' : (Except.ok (Arg.aStr s' :: more) : Except PyErr (List Arg))
                          = .ok args := h
                      cases h'
                      simp [ih n ctx more hm]
          | aInt m =>
              simp only [mapProcessArgs] at h
              cases hm : mapProcessArgs n ctx rest with
              | error e =>
                  rw [hm] at h
                  exact Except.noConfusion h
              | ok more =>
                  rw [hm] at h
                  have h' : (Except.ok (Arg.aInt m :: more) : Except PyErr (List Arg))
                      = .ok args := h
                  cases h'
                  simp [ih n ctx more hm]

/-- `{% set %}` binding processes matches sequentially in source
order: a split of the match list corresponds to sequential context
threading. -/
theorem bindVars_append (fuel : Nat) : ∀ (ms1 ms2 : List (String × String)) (ctx : Ctx),
    bindVars fuel ctx (ms1 ++ ms2) =
      (do
        let c1 ← bindVars fuel ctx ms1
        bindVars fuel c1 ms2) := by
  intro ms1
  induction ms1 with
  | nil => intro ms2 ctx; rfl
  | cons m rest ih =>
      intro ms2 ctx
      match m with
      | (k, v) =>
          show (do
              let rv ← process_placeholders fuel ctx (strStrip v)
              bindVars fuel (dictSet ctx (strStrip k) (.vStr rv)) (rest ++ ms2)) = _
          cases hp2 : process_placeholders fuel ctx (strStrip v) with
          | error e =>
              have hL : bindVars fuel ctx ((k, v) :: rest)
                  = (Except.error e : Except PyErr Ctx) := by
                show (do
                    let rv ← process_placeholders fuel ctx (strStrip v)
                    bindVars fuel (dictSet ctx (strStrip k) (.vStr rv)) rest) = _
                rw [hp2]
                rfl
              rw [hL]
              rfl
          | ok rv =>
              have hL : bindVars fuel ctx ((k, v) :: rest)
                  = bindVars fuel (dictSet ctx (strStrip k) (.vStr rv)) rest := by
                show (do
                    let rv ← process_placeholders fuel ctx (strStrip v)
                    bindVars fuel (dictSet ctx (strStrip k) (.vStr rv)) rest) = _
                rw [hp2]
                rfl
              rw [hL]
              exact ih ms2 (dictSet ctx (strStrip k) (.vStr rv))

/-- Rebinding a name replaces its value: the last write wins. -/
theorem dictSet_get (k : String) (v : Value) : ∀ d : List (String × Value),
    dictGet (dictSet d k v) k = some v := by
  intro d
  induction d with
  | nil => simp [dictSet, dictGet]
  | cons p rest ih =>
      match p with
      | (k', w) =>
          by_cases hk : k' = k
          · subst hk; simp [dictSet, dictGet]
          · simp [dictSet, dictGet, hk, ih]

/-- A template whose variable scan finds no `{% set %}` match leaves
the context untouched through `_process_variables`. -/
theorem process_variables_nomatch (fuel : Nat) (ctx : Ctx) (t : String)
    (h : (varScan t.data).1 = []) :
    process_variables fuel ctx t = .ok (ctx, String.mk (varScan t.data).2) := by
  unfold process_variables
  rcases hv : varScan t.data with ⟨ms, res⟩
  rw [hv] at h
  simp only at h
  subst h
  rfl

/-- `Except` bind on a success. -/
theorem exbind_ok {α β : Type} (a : α) (f : α → Except PyErr β) :
    (Except.ok a >>= f) = f a := rfl

/-- `Except` bind on a failure. -/
theorem exbind_err {α β : Type} (e : PyErr) (f : α → Except PyErr β) :
    ((Except.error e : Except PyErr α) >>= f) = Except.error e := rfl

/-! ## Claims -/

/-- C2: there is an input on which `render` raises an uncaught
exception: the templates `{}` and `{ }` match the placeholder pattern
with a missing path group, `_parse_placeholder` calls `.split` on
`None` outside its `try` block, and `render` propagates the
`AttributeError` to the caller instead of returning a string —
`render` is not total. -/
theorem C2_render_not_total :
    render 100 true [] "\x7b\x7d"
      = .error (.exc "'NoneType' object has no attribute 'split'") ∧
    render 100 true [] "\x7b \x7d"
      = .error (.exc "'NoneType' object has no attribute 'split'") :=
  ⟨rfl, rfl⟩

/-- C1 counterexample: the claim promises the placeholder's original,
unmodified source text.  (1) `{ missing }` renders as `{missing}` —
inner whitespace is not preserved, because the fallback is rebuilt as
`"{" + func_key + "}"` from the path group alone; (2) digging through
a non-mapping does not emit the original text either: `{a.b}` with
`a = 5` renders `5`. -/
theorem C1_counterexample :
    (render 100 true [] "\x7b missing \x7d" = .ok ("\x7bmissing\x7d", []) ∧
      "\x7bmissing\x7d" ≠ "\x7b missing \x7d") ∧
    (render 100 true [("a", Value.vInt 5)] "\x7ba.b\x7d"
        = .ok ("5", [("a", Value.vInt 5)]) ∧
      ("5" : String) ≠ "\x7ba.b\x7d") :=
  ⟨⟨rfl, by decide⟩, ⟨rfl, by decide⟩⟩

/-- C1 (amended): when a placeholder's dotted-path walk fails at a
dict lookup (a segment not found before any callable is reached), the
engine emits `{` ++ path ++ `}` — the path group with the brace
whitespace normalised away, not the original source span — and never
raises for this reason; `render("{missing.value}")` on an empty
context returns the literal `"{missing.value}"`. -/
theorem C1_amended :
    (∀ (fuel : Nat) (ctx : Ctx) (key : String) (g2 : Option String),
      walkHitsMiss (splitOnDot key.data) (.vDict ctx) = true →
      (splitOnDot key.data).length + 1 < fuel →
      parse_placeholder fuel ctx (some key) g2
        = .ok ("\x7b" ++ key ++ "\x7d")) ∧
    render 100 true [] "\x7bmissing.value\x7d"
      = .ok ("\x7bmissing.value\x7d", []) := by
  constructor
  · intro fuel ctx key g2 h hf
    match fuel, hf with
    | n + 1, hf =>
      have hlen : (splitOnDot key.data).length < n := by omega
      simp only [parse_placeholder]
      rw [walkNC_sound (splitOnDot key.data) n ctx ("\x7b" ++ key ++ "\x7d") g2
        (.vDict ctx) (.vStr ("\x7b" ++ key ++ "\x7d"))
        (walkHitsMiss_walkNC ("\x7b" ++ key ++ "\x7d") (splitOnDot key.data)
          (.vDict ctx) h) hlen]
      rfl
  · rfl

/-- C1 witness. -/
theorem C1_witness :
    parse_placeholder 100 [] (some "missing.value") none
      = .ok ("\x7bmissing.value\x7d") :=
  C1_amended.1 100 [] "missing.value" none (by rfl) (by decide)

/-- C4 counterexample: a placeholder path resolving to a mapping is
not emitted as original text — it is stringified with Python's
`str(dict)` formatting: `{a}` with `a = {'b': 1}` renders
`{'b': 1}`. -/
theorem C4_counterexample :
    (render 100 true [("a", Value.vDict [("b", Value.vInt 1)])] "\x7ba\x7d"
      = .ok ("\x7b'b': 1\x7d", [("a", Value.vDict [("b", Value.vInt 1)])])) ∧
    ("\x7b'b': 1\x7d" : String) ≠ "\x7ba\x7d" :=
  ⟨rfl, by decide⟩

/-- C4 (amended): when the dotted path resolves, with all segments
consumed, to a mapping value (no callable on the way), the final
`str(current)` of `_parse_placeholder` renders the dict with Python's
`str` formatting rather than emitting the placeholder text. -/
theorem C4_amended :
    ∀ (fuel : Nat) (ctx : Ctx) (key : String) (g2 : Option String)
      (d : List (String × Value)),
      walkNC ("\x7b" ++ key ++ "\x7d") (splitOnDot key.data) (.vDict ctx)
        = some (.vDict d) →
      (splitOnDot key.data).length + 1 < fuel →
      parse_placeholder fuel ctx (some key) g2 = .ok (pyStr (.vDict d)) := by
  intro fuel ctx key g2 d h hf
  match fuel, hf with
  | n + 1, hf =>
    have hlen : (splitOnDot key.data).length < n := by omega
    simp only [parse_placeholder]
    rw [walkNC_sound (splitOnDot key.data) n ctx ("\x7b" ++ key ++ "\x7d") g2
      (.vDict ctx) (.vDict d) h hlen]

/-- C4 witness. -/
theorem C4_witness :
    parse_placeholder 100 [("a", Value.vDict [("b", Value.vInt 1)])]
      (some "a") none = .ok (pyStr (.vDict [("b", Value.vInt 1)])) :=
  C4_amended 100 [("a", Value.vDict [("b", Value.vInt 1)])] "a" none
    [("b", Value.vInt 1)] (by rfl) (by decide)

/-- C3 counterexample: a bare placeholder for a callable does not emit
the original text — `_parse_placeholder` passes the missing argument
group (`None`) to `_parse_function_call`, whose iteration raises
`TypeError`, caught and rendered as an error marker: `{f}` with `f`
callable renders `[ ERROR:f: 'NoneType' object is not iterable ]`. -/
theorem C3_counterexample :
    (render 100 true [("f", Value.vFunc cbCount)] "\x7bf\x7d"
      = .ok ("[ ERROR:f: 'NoneType' object is not iterable ]",
             [("f", Value.vFunc cbCount)])) ∧
    ("[ ERROR:f: 'NoneType' object is not iterable ]" : String) ≠ "\x7bf\x7d" :=
  ⟨rfl, by decide⟩

/-- C3 (amended): when the walk reaches a callable and the token
carries no argument list, the argument parser raises `TypeError` on
the missing group, the local handler renders
`[ ERROR:<path>: 'NoneType' object is not iterable ]`, and the
callable itself is never invoked — witnessed by the output being the
same marker for every host callable `f`. -/
theorem C3_amended :
    (∀ (fuel : Nat) (ctx : Ctx) (key : String),
      walkHitsFunc ("\x7b" ++ key ++ "\x7d") (splitOnDot key.data) (.vDict ctx) = true →
      (splitOnDot key.data).length + 1 < fuel →
      parse_placeholder fuel ctx (some key) none
        = .ok ("[ ERROR:" ++ key ++ ": 'NoneType' object is not iterable ]")) ∧
    (∀ f : List Arg → Except String Value,
      render 100 true [("f", Value.vFunc f)] "\x7bf\x7d"
        = .ok ("[ ERROR:f: 'NoneType' object is not iterable ]",
               [("f", Value.vFunc f)])) := by
  constructor
  · intro fuel ctx key h hf
    match fuel, hf with
    | n + 1, hf =>
      have hlen : (splitOnDot key.data).length < n := by omega
      simp only [parse_placeholder]
      rw [walkHitsFunc_err (splitOnDot key.data) n ctx
        ("\x7b" ++ key ++ "\x7d") (.vDict ctx) h hlen]
      simp [String.append_assoc]
  · intro f
    rfl

/-- C3 witness. -/
theorem C3_witness :
    parse_placeholder 100 [("f", Value.vFunc cbCount)] (some "f") none
      = .ok ("[ ERROR:f: 'NoneType' object is not iterable ]") :=
  C3_amended.1 100 [("f", Value.vFunc cbCount)] "f" (by rfl) (by decide)

/-- C5 counterexample: a condition term with an operator outside
`{==, !=}` does not raise — it fails the comparison pattern and
silently evaluates false: `a < b` yields `.ok false` and the
conditional renders `""` with no error surfaced. -/
theorem C5_counterexample :
    evaluate_comparison [] "a < b" = .ok false ∧
    render 100 true [] "\x7b% if a < b %\x7dY\x7b% endif %\x7d" = .ok ("", []) :=
  ⟨rfl, rfl⟩

/-- C5 (amended): the operator group of `_re_match` only admits `==`
and `!=`, so a term with any other comparison operator never matches
the pattern and is evaluated as a bare term (usually false) — the
`raise ValueError` branch is unreachable and condition evaluation
never surfaces an error to the caller. -/
theorem C5_amended :
    (∀ (ctx : Ctx) (term : String), ∃ b, evaluate_comparison ctx term = .ok b) ∧
    (∀ (ctx : Ctx) (cond : String), ∃ b, evaluate_condition ctx cond = .ok b) ∧
    (∀ (s l op r : String), reMatch s = some (l, op, r) → op = "==" ∨ op = "!=") :=
  ⟨evaluate_comparison_ok, evaluate_condition_ok, reMatch_op⟩

/-- C5 witness. -/
theorem C5_witness :
    (("==" : String) = "==" ∨ ("==" : String) = "!=") ∧
    ∃ b, evaluate_comparison [] "a < b" = .ok b :=
  ⟨C5_amended.2.2 "x == y" "x" "==" "y" (by rfl), C5_amended.1 [] "a < b"⟩

/-- C6 counterexample: truthiness is Python's, so the integer `0` is
falsy, not truthy as the claim states: with `{flag: 0}` the template
`{% if flag %}Y{% endif %}` renders `""`, not `"Y"`. -/
theorem C6_counterexample :
    render 100 true [("flag", Value.vInt 0)] "\x7b% if flag %\x7dY\x7b% endif %\x7d"
      = .ok ("", [("flag", Value.vInt 0)]) ∧
    ("" : String) ≠ "Y" :=
  ⟨rfl, by decide⟩

/-- C6 (amended): a bare dotted-path condition term evaluates to the
Python truthiness of its resolved value: `""`, `false`, `None`
(including unresolved paths), the integer `0`, the float `0.0` and
empty mappings are falsy; every other resolved value (nonzero
numbers, nonempty strings, nonempty mappings, callables) is truthy.
With `{flag: true}` the template `{% if flag %}Y{% endif %}` renders
`"Y"` and with `{flag: ""}` it renders `""`. -/
theorem C6_amended :
    (∀ (ctx : Ctx) (term : String),
      strStartsWith (strStrip term) "not " = false →
      reMatch (strStrip term) = none →
      (strIsIdentifier (strStrip term) || strContainsChar (strStrip term) '.') = true →
      evaluate_comparison ctx term = .ok (pyBool (resolve_key ctx (strStrip term)))) ∧
    (pyBool (.vStr "") = false ∧ pyBool (.vBool false) = false ∧
     pyBool .vNone = false ∧ pyBool (.vInt 0) = false ∧
     pyBool (.vFloat 0) = false ∧ pyBool (.vDict []) = false) ∧
    (∀ n : Int, n ≠ 0 → pyBool (.vInt n) = true) ∧
    (∀ s : String, s ≠ "" → pyBool (.vStr s) = true) ∧
    (∀ e : List (String × Value), e ≠ [] → pyBool (.vDict e) = true) ∧
    (∀ f, pyBool (.vFunc f) = true) ∧
    render 100 true [("flag", Value.vBool true)] "\x7b% if flag %\x7dY\x7b% endif %\x7d"
      = .ok ("Y", [("flag", Value.vBool true)]) ∧
    render 100 true [("flag", Value.vStr "")] "\x7b% if flag %\x7dY\x7b% endif %\x7d"
      = .ok ("", [("flag", Value.vStr "")]) := by
  refine ⟨?_, ⟨by decide, by decide, by decide, by decide, by decide, by decide⟩,
    ?_, ?_, ?_, fun f => rfl, rfl, rfl⟩
  · intro ctx term h1 h2 h3
    unfold evaluate_comparison
    dsimp only
    simp [h1, h2, h3]
  · intro n hn
    simp [pyBool, hn]
  · intro s hs
    simp [pyBool, hs]
  · intro e he
    simp [pyBool, he]

/-- C6 witness. -/
theorem C6_witness :
    evaluate_comparison [("flag", Value.vBool true)] "flag"
      = .ok (pyBool (resolve_key [("flag", Value.vBool true)] (strStrip "flag"))) ∧
    pyBool (.vInt 5) = true :=
  ⟨C6_amended.1 [("flag", Value.vBool true)] "flag" (by rfl) (by rfl) (by rfl),
   C6_amended.2.2.1 5 (by decide)⟩

/-- C7: for a matched conditional block whose `else` marker (if any)
is terminal — the documented `if [elif]* [else] endif` shape — the
branch conditions are evaluated strictly in source order and exactly
one branch body is kept: the body of the first branch whose condition
is true, else the `else` body if present, else `""`, the kept body
trimmed of surrounding whitespace; discarded branch text never
appears.  Concretely, `{% if a %}A{% elif b %}B{% else %}C{% endif %}`
with `a` falsy and `b` truthy renders exactly `B`. -/
theorem C7_branch_selection :
    (∀ (ctx : Ctx) (cond content : String),
      elseTerminal (condBranches cond content) = true →
      evaluate_conditional_block ctx cond content
        = .ok (specSelectBranch ctx (condBranches cond content))) ∧
    render 100 true [("a", Value.vStr ""), ("b", Value.vInt 1)]
        "\x7b% if a %\x7dA\x7b% elif b %\x7dB\x7b% else %\x7dC\x7b% endif %\x7d"
      = .ok ("B", [("a", Value.vStr ""), ("b", Value.vInt 1)]) := by
  constructor
  · intro ctx cond content h
    exact select_branch_spec ctx (condBranches cond content) h
  · rfl

/-- C7 witness. -/
theorem C7_witness :
    evaluate_conditional_block [("x", Value.vBool true)] "x"
      "A\x7b% else %\x7dB" = .ok "A" :=
  (C7_branch_selection.1 [("x", Value.vBool true)] "x"
    "A\x7b% else %\x7dB" (by rfl)).trans (by rfl)

/-- Context used by the C8 argument-order theorems. -/
def ctxC8 : Ctx := [("x", Value.vStr "a,b"), ("f", Value.vFunc cbCount)]

/-- C8 counterexample: the extra placeholder-resolution pass runs per
argument AFTER the top-level comma split, not on the raw argument
substring before splitting: with `x = "a,b"`, the call token `{f({x})}`
passes ONE argument `"a,b"` (render `"1"` for an argument-counting
callable), while the claim's order (substitute first, then split)
would produce the two arguments `"a"`, `"b"`. -/
theorem C8_counterexample :
    parse_function_call 100 ctxC8 (some "\x7bx\x7d") = .ok [.aStr "a,b"] ∧
    claimOrderArgs 100 ctxC8 "\x7bx\x7d" = .ok [.aStr "a", .aStr "b"] ∧
    render 100 true ctxC8 "\x7bf(\x7bx\x7d)\x7d" = .ok ("1", ctxC8) ∧
    ([Arg.aStr "a,b"] ≠ [Arg.aStr "a", Arg.aStr "b"]) :=
  ⟨rfl, rfl, rfl, by decide⟩

/-- C8 (amended): the raw argument substring is split on top-level
commas first; each token is then context/integer/quote-resolved and,
when still a string, passed through one extra placeholder-resolution
pass; the resulting arguments go to the callable positionally in
left-to-right order.  In particular the argument count is always that
of the raw-text split, and nested placeholders are substituted within
their own argument. -/
theorem C8_amended :
    (∀ (fuel : Nat) (ctx : Ctx) (expr : String) (args : List Arg),
      parse_function_call fuel ctx (some expr) = .ok args →
      args.length = (splitArgs expr).length) ∧
    render 100 true [("a", Value.vStr "A"), ("b", Value.vStr "B"),
        ("f", Value.vFunc cbJoin)] "\x7bf(a, b)\x7d"
      = .ok ("A|B", [("a", Value.vStr "A"), ("b", Value.vStr "B"),
          ("f", Value.vFunc cbJoin)]) ∧
    render 100 true [("y", Value.vStr "Z"), ("f", Value.vFunc cbJoin)]
        "\x7bf(\x7by\x7d, 1)\x7d"
      = .ok ("Z|1", [("y", Value.vStr "Z"), ("f", Value.vFunc cbJoin)]) := by
  refine ⟨?_, rfl, rfl⟩
  intro fuel ctx expr args h
  match fuel with
  | 0 => exact Except.noConfusion h
  | n + 1 =>
      have := mapProcessArgs_length ((splitArgs expr).map (resolveArgToken ctx))
        n ctx args h
      simpa using this

/-- C8 witness. -/
theorem C8_witness :
    ([Arg.aStr "a,b"] : List Arg).length = (splitArgs "\x7bx\x7d").length :=
  C8_amended.1 100 ctxC8 "\x7bx\x7d" [Arg.aStr "a,b"] (by rfl)

/-- C9 counterexample: the value group `(.*)` of the set-directive
pattern is greedy within a line, so two `{% set %}` directives on one
line merge into a single match whose VALUE spans up to the line's last
` %}` — the second directive is never processed as its own binding:
`{% set x = A %}{% set y = B %}{y}` binds only
`x = "A %}{% set y = B"` and renders `{y}`, not `B`. -/
theorem C9_counterexample :
    render 100 true [] "\x7b% set x = A %\x7d\x7b% set y = B %\x7d\x7by\x7d"
      = .ok ("\x7by\x7d", [("x", Value.vStr "A %\x7d\x7b% set y = B")]) ∧
    ("\x7by\x7d" : String) ≠ "B" :=
  ⟨rfl, by decide⟩

/-- C9 (amended): the `{% set NAME = VALUE %}` matches of the greedy
per-line pattern are processed in source order — splitting the match
list corresponds to sequential context threading — with VALUE
resolved once, eagerly, at bind time, last write winning on a
repeated NAME, and the matched text deleted from the output; in
particular `render("{% set x = Hello %}{x}") = "Hello"`, rebinding on
separate lines keeps the last value, and a later rebinding of `a`
does not retroactively change an earlier `{% set x = {a} %}`. -/
theorem C9_amended :
    (∀ (fuel : Nat) (ms1 ms2 : List (String × String)) (ctx : Ctx),
      bindVars fuel ctx (ms1 ++ ms2) =
        (do
          let c1 ← bindVars fuel ctx ms1
          bindVars fuel c1 ms2)) ∧
    (∀ (k : String) (v : Value) (d : List (String × Value)),
      dictGet (dictSet d k v) k = some v) ∧
    render 100 true [] "\x7b% set x = Hello %\x7d\x7bx\x7d"
      = .ok ("Hello", [("x", Value.vStr "Hello")]) ∧
    render 200 true [] "\x7b% set x = A %\x7d\n\x7b% set x = B %\x7d\n\x7bx\x7d"
      = .ok ("B", [("x", Value.vStr "B")]) ∧
    render 200 true [("a", Value.vStr "1")]
        "\x7b% set x = \x7ba\x7d %\x7d\n\x7b% set a = 2 %\x7d\n\x7bx\x7d"
      = .ok ("1", [("a", Value.vStr "2"), ("x", Value.vStr "1")]) :=
  ⟨fun fuel ms1 ms2 ctx => bindVars_append fuel ms1 ms2 ctx,
   fun k v d => dictSet_get k v d, rfl, rfl, rfl⟩

/-- C10: a render of a template with no `{% set %}` match leaves the
context unchanged (host callables are pure in this embedding, so
`set` binding is the engine's only context mutation). -/
theorem C10_context_preserved :
    ∀ (fuel : Nat) (conditionals : Bool) (ctx : Ctx) (template out : String)
      (ctx' : Ctx),
    (varScan (strStrip template).data).1 = [] →
    render fuel conditionals ctx template = .ok (out, ctx') →
    ctx' = ctx := by
  intro fuel conds ctx template out ctx' h hr
  have hpv := process_variables_nomatch fuel ctx (strStrip template) h
  unfold render at hr
  dsimp only at hr
  rw [hpv, exbind_ok] at hr
  dsimp only at hr
  cases conds with
  | true =>
      rw [if_pos rfl] at hr
      cases hc : process_conditionals ctx
          (String.mk (varScan (strStrip template).data).2) with
      | error e => rw [hc, exbind_err] at hr; exact Except.noConfusion hr
      | ok t2 =>
          rw [hc, exbind_ok] at hr
          cases hp : process_placeholders fuel ctx t2 with
          | error e => rw [hp, exbind_err] at hr; exact Except.noConfusion hr
          | ok t3 =>
              rw [hp, exbind_ok] at hr
              have h2 : (Except.ok (strStrip t3, ctx) : Except PyErr (String × Ctx))
                  = .ok (out, ctx') := hr
              cases h2
              rfl
  | false =>
      rw [if_neg (by decide)] at hr
      rw [exbind_ok] at hr
      cases hp : process_placeholders fuel ctx
          (String.mk (varScan (strStrip template).data).2) with
      | error e => rw [hp] at hr; exact Except.noConfusion hr
      | ok t3 =>
          rw [hp] at hr
          have h2 : (Except.ok (strStrip t3, ctx) : Except PyErr (String × Ctx))
              = .ok (out, ctx') := hr
          cases h2
          rfl

/-- C10 witness. -/
theorem C10_witness :
    render 100 true [("name", Value.vStr "World")] "Hi \x7bname\x7d!"
      = .ok ("Hi World!", [("name", Value.vStr "World")]) ∧
    ([("name", Value.vStr "World")] : Ctx) = [("name", Value.vStr "World")] :=
  ⟨rfl, C10_context_preserved 100 true [("name", Value.vStr "World")]
    "Hi \x7bname\x7d!" "Hi World!" [("name", Value.vStr "World")]
    (by rfl) (by rfl)⟩
